import Mathlib

/-!
Shallow embedding of the MultiversX wine-marketplace contract
(`src/contracts/wine-marketplace/src/lib.rs`).

Modelling conventions:
* `BigUint` amounts become `Nat` (arbitrary-precision unsigned, as in the
  source type).
* `u32` / `u64` counters and timestamps become `Nat`; none of the claims
  depends on wrap-around, and the framework traps overflow, so additions
  are modelled exactly.  The `u32` statistics decrements (`active_listings
  -= 1`, `active_auctions -= 1`) are modelled with truncated `Nat`
  subtraction; claims about a decrement carry the positivity hypothesis
  that holds in every reachable state.
* Addresses become `Nat`; token identifiers become the tagged type
  `EgldOrEsdtTokenIdentifier` mirroring the framework type.
* Blockchain context (`get_caller`, `get_block_timestamp`, attached
  payment, `get_owner_address`) becomes explicit parameters / a state
  field.
* `require!` failure aborts the whole transaction, so every endpoint
  returns `Except String`; an `Except.error` result carries no state and
  no transfers (the all-or-nothing execution model).
* Outgoing `direct_egld` / `direct_esdt` calls are collected in a
  `List Transfer`, in program order.
-/

namespace WineMarketplace

/-- Token identifier `EgldOrEsdtTokenIdentifier`: native EGLD or an ESDT token id. -/
inductive EgldOrEsdtTokenIdentifier where
  | egld : EgldOrEsdtTokenIdentifier
  | esdt (id : Nat) : EgldOrEsdtTokenIdentifier
deriving DecidableEq, Repr

/-- Account addresses are modelled as natural numbers. -/
abbrev Address := Nat

/-- The `Listing` record of the source. -/
structure Listing where
  wine_nft_id : Nat
  nft_token_id : Nat
  nft_nonce : Nat
  seller : Address
  price : Nat
  payment_token : EgldOrEsdtTokenIdentifier
  deadline : Nat
  active : Bool
  created_timestamp : Nat
deriving DecidableEq, Repr

/-- The `Auction` record of the source. -/
structure Auction where
  wine_nft_id : Nat
  nft_token_id : Nat
  nft_nonce : Nat
  seller : Address
  starting_price : Nat
  current_bid : Nat
  highest_bidder : Address
  payment_token : EgldOrEsdtTokenIdentifier
  end_timestamp : Nat
  active : Bool
  min_bid_increment : Nat
  bid_count : Nat
deriving DecidableEq, Repr

/-- The `MarketplaceStats` record of the source. -/
structure MarketplaceStats where
  total_listings : Nat
  total_sales : Nat
  total_volume : Nat
  total_fees_collected : Nat
  active_listings : Nat
  active_auctions : Nat
deriving DecidableEq, Repr

/-- Storage default for an unset listing slot (top-decode of empty bytes:
all fields zero / false). -/
def defaultListing : Listing :=
  { wine_nft_id := 0, nft_token_id := 0, nft_nonce := 0, seller := 0,
    price := 0, payment_token := EgldOrEsdtTokenIdentifier.egld,
    deadline := 0, active := false, created_timestamp := 0 }

/-- Storage default for an unset auction slot. -/
def defaultAuction : Auction :=
  { wine_nft_id := 0, nft_token_id := 0, nft_nonce := 0, seller := 0,
    starting_price := 0, current_bid := 0, highest_bidder := 0,
    payment_token := EgldOrEsdtTokenIdentifier.egld, end_timestamp := 0,
    active := false, min_bid_increment := 0, bid_count := 0 }

/-- An attached payment as returned by `call_value().egld_or_single_esdt()`. -/
structure EgldOrEsdtTokenPayment where
  token_identifier : EgldOrEsdtTokenIdentifier
  token_nonce : Nat
  amount : Nat
deriving DecidableEq, Repr

/-- An attached payment as returned by `call_value().single_esdt()`. -/
structure EsdtTokenPayment where
  token_identifier : Nat
  token_nonce : Nat
  amount : Nat
deriving DecidableEq, Repr

/-- An outgoing transfer performed by the contract. -/
inductive Transfer where
  | egld (dest : Address) (amount : Nat) : Transfer
  | esdt (dest : Address) (token_id : Nat) (nonce : Nat) (amount : Nat) : Transfer
deriving DecidableEq, Repr

/-- The `if payment_token.is_egld() { direct_egld } else { direct_esdt
(unwrap_esdt, nonce 0) }` pattern used for every fungible payout. -/
def payOut (token : EgldOrEsdtTokenIdentifier) (dest : Address) (amount : Nat) :
    Transfer :=
  match token with
  | EgldOrEsdtTokenIdentifier.egld => Transfer.egld dest amount
  | EgldOrEsdtTokenIdentifier.esdt id => Transfer.esdt dest id 0 amount

/-- Full contract storage plus the deployment-time owner address. -/
structure State where
  listings : Nat → Listing
  auctions : Nat → Auction
  seller_listings : Address → List Nat
  seller_auctions : Address → List Nat
  supported_payment_tokens : EgldOrEsdtTokenIdentifier → Bool
  marketplace_stats : MarketplaceStats
  listing_counter : Nat
  auction_counter : Nat
  marketplace_fee_percent : Nat
  wine_registry_address : Address
  owner : Address

/-- Endpoint `init`: rejects a fee above 1000 basis points, then initialises
counters to 1, marks EGLD supported and zeroes the statistics. -/
def init (marketplace_fee_percent : Nat) (wine_registry_address : Address)
    (owner : Address) : Except String State :=
  if marketplace_fee_percent ≤ 1000 then
    Except.ok
      { listings := fun _ => defaultListing
        auctions := fun _ => defaultAuction
        seller_listings := fun _ => []
        seller_auctions := fun _ => []
        supported_payment_tokens := fun t =>
          decide (t = EgldOrEsdtTokenIdentifier.egld)
        marketplace_stats :=
          { total_listings := 0, total_sales := 0, total_volume := 0,
            total_fees_collected := 0, active_listings := 0,
            active_auctions := 0 }
        listing_counter := 1
        auction_counter := 1
        marketplace_fee_percent := marketplace_fee_percent
        wine_registry_address := wine_registry_address
        owner := owner }
  else Except.error "Fee cannot exceed 10%"

/-- Endpoint `addSupportedToken` (`#[only_owner]`). -/
def add_supported_token (s : State) (caller : Address)
    (token_id : EgldOrEsdtTokenIdentifier) :
    Except String (State × List Transfer) :=
  if caller ≠ s.owner then Except.error "Endpoint can only be called by owner"
  else
    Except.ok
      ({ s with supported_payment_tokens := fun t =>
          if t = token_id then true else s.supported_payment_tokens t }, [])

/-- Endpoint `createListing`: validates token/price/duration, escrows exactly one
NFT, stores the listing at the current counter value, bumps the counter
and the listing statistics, and returns the id. -/
def create_listing (s : State) (caller : Address) (now : Nat)
    (payment : EsdtTokenPayment) (wine_nft_id : Nat) (price : Nat)
    (payment_token : EgldOrEsdtTokenIdentifier) (duration_seconds : Nat) :
    Except String (State × List Transfer × Nat) :=
  if ¬ s.supported_payment_tokens payment_token = true then
    Except.error "Payment token not supported"
  else if price = 0 then Except.error "Price must be greater than zero"
  else if duration_seconds < 3600 then
    Except.error "Minimum listing duration is 1 hour"
  else if 2592000 < duration_seconds then
    Except.error "Maximum listing duration is 30 days"
  else if payment.amount ≠ 1 then Except.error "Must send exactly 1 NFT"
  else
    let deadline := now + duration_seconds
    let listing_id := s.listing_counter
    let listing : Listing :=
      { wine_nft_id := wine_nft_id
        nft_token_id := payment.token_identifier
        nft_nonce := payment.token_nonce
        seller := caller
        price := price
        payment_token := payment_token
        deadline := deadline
        active := true
        created_timestamp := now }
    Except.ok
      ({ s with
          listings := fun i => if i = listing_id then listing else s.listings i
          listing_counter := listing_id + 1
          seller_listings := fun a =>
            if a = caller then s.seller_listings a ++ [listing_id]
            else s.seller_listings a
          marketplace_stats :=
            { s.marketplace_stats with
                total_listings := s.marketplace_stats.total_listings + 1
                active_listings := s.marketplace_stats.active_listings + 1 } },
        [], listing_id)

/-- Endpoint `buyWine`: checks active / not expired / payment token / amount /
not self-buy, then transfers the NFT to the buyer, the price minus fee to
the seller, the fee (if non-zero) to the contract owner, any surplus back
to the buyer, deactivates the listing and updates the statistics. -/
def buy_wine (s : State) (caller : Address) (now : Nat)
    (payment : EgldOrEsdtTokenPayment) (listing_id : Nat) :
    Except String (State × List Transfer) :=
  let listing := s.listings listing_id
  if ¬ listing.active = true then Except.error "Listing is not active"
  else if ¬ now ≤ listing.deadline then Except.error "Listing has expired"
  else if payment.token_identifier ≠ listing.payment_token then
    Except.error "Invalid payment token"
  else if payment.amount < listing.price then
    Except.error "Insufficient payment"
  else if caller = listing.seller then
    Except.error "Cannot buy your own listing"
  else
    let marketplace_fee := listing.price * s.marketplace_fee_percent / 10000
    let seller_amount := listing.price - marketplace_fee
    let nft_transfer : Transfer :=
      Transfer.esdt caller listing.nft_token_id listing.nft_nonce 1
    let seller_transfer : Transfer :=
      payOut listing.payment_token listing.seller seller_amount
    let fee_transfers : List Transfer :=
      if marketplace_fee ≠ 0 then
        [payOut listing.payment_token s.owner marketplace_fee]
      else []
    let surplus := payment.amount - listing.price
    let surplus_transfers : List Transfer :=
      if 0 < surplus then [payOut payment.token_identifier caller surplus]
      else []
    Except.ok
      ({ s with
          listings := fun i =>
            if i = listing_id then { listing with active := false }
            else s.listings i
          marketplace_stats :=
            { s.marketplace_stats with
                total_sales := s.marketplace_stats.total_sales + 1
                total_volume := s.marketplace_stats.total_volume + listing.price
                total_fees_collected :=
                  s.marketplace_stats.total_fees_collected + marketplace_fee
                active_listings := s.marketplace_stats.active_listings - 1 } },
        nft_transfer :: seller_transfer :: (fee_transfers ++ surplus_transfers))

/-- Endpoint `createAuction`: validates token/price/duration/increment, escrows
one NFT, stores the auction (current bid = starting price, highest bidder
= seller sentinel, bid count 0), bumps counter and statistics. -/
def create_auction (s : State) (caller : Address) (now : Nat)
    (payment : EsdtTokenPayment) (wine_nft_id : Nat) (starting_price : Nat)
    (payment_token : EgldOrEsdtTokenIdentifier) (duration_seconds : Nat)
    (min_bid_increment : Nat) : Except String (State × List Transfer × Nat) :=
  if ¬ s.supported_payment_tokens payment_token = true then
    Except.error "Payment token not supported"
  else if starting_price = 0 then
    Except.error "Starting price must be greater than zero"
  else if duration_seconds < 3600 then
    Except.error "Minimum auction duration is 1 hour"
  else if 604800 < duration_seconds then
    Except.error "Maximum auction duration is 7 days"
  else if min_bid_increment = 0 then
    Except.error "Min bid increment must be greater than zero"
  else if payment.amount ≠ 1 then Except.error "Must send exactly 1 NFT"
  else
    let end_timestamp := now + duration_seconds
    let auction_id := s.auction_counter
    let auction : Auction :=
      { wine_nft_id := wine_nft_id
        nft_token_id := payment.token_identifier
        nft_nonce := payment.token_nonce
        seller := caller
        starting_price := starting_price
        current_bid := starting_price
        highest_bidder := caller
        payment_token := payment_token
        end_timestamp := end_timestamp
        active := true
        min_bid_increment := min_bid_increment
        bid_count := 0 }
    Except.ok
      ({ s with
          auctions := fun i => if i = auction_id then auction else s.auctions i
          auction_counter := auction_id + 1
          seller_auctions := fun a =>
            if a = caller then s.seller_auctions a ++ [auction_id]
            else s.seller_auctions a
          marketplace_stats :=
            { s.marketplace_stats with
                active_auctions := s.marketplace_stats.active_auctions + 1 } },
        [], auction_id)

/-- Endpoint `placeBid`: checks active / not ended / payment token / not seller /
bid ≥ current bid + increment, refunds the previous highest bidder when a
real bid exists, records the new bid, and extends the end timestamp by
600 seconds when less than 600 seconds remain. -/
def place_bid (s : State) (caller : Address) (now : Nat)
    (payment : EgldOrEsdtTokenPayment) (auction_id : Nat) :
    Except String (State × List Transfer) :=
  let auction := s.auctions auction_id
  if ¬ auction.active = true then Except.error "Auction is not active"
  else if ¬ now < auction.end_timestamp then Except.error "Auction has ended"
  else if payment.token_identifier ≠ auction.payment_token then
    Except.error "Invalid payment token"
  else if caller = auction.seller then
    Except.error "Cannot bid on your own auction"
  else if payment.amount < auction.current_bid + auction.min_bid_increment then
    Except.error "Bid too low"
  else
    let refund_transfers : List Transfer :=
      if auction.highest_bidder ≠ auction.seller ∧ 0 < auction.bid_count then
        [payOut auction.payment_token auction.highest_bidder auction.current_bid]
      else []
    let time_left := auction.end_timestamp - now
    let new_end :=
      if time_left < 600 then auction.end_timestamp + 600
      else auction.end_timestamp
    Except.ok
      ({ s with
          auctions := fun i =>
            if i = auction_id then
              { auction with
                  current_bid := payment.amount
                  highest_bidder := caller
                  bid_count := auction.bid_count + 1
                  end_timestamp := new_end }
            else s.auctions i },
        refund_transfers)

/-- Endpoint `finalizeAuction`: checks active / ended / caller is seller or highest
bidder, deactivates the auction, and either settles the sale (real bid)
or returns the NFT to the seller (no bid). -/
def finalize_auction (s : State) (caller : Address) (now : Nat)
    (auction_id : Nat) : Except String (State × List Transfer) :=
  let auction := s.auctions auction_id
  if ¬ auction.active = true then Except.error "Auction is not active"
  else if now < auction.end_timestamp then
    Except.error "Auction has not ended yet"
  else if ¬ (caller = auction.seller ∨ caller = auction.highest_bidder) then
    Except.error "Only seller or highest bidder can finalize"
  else
    let s1 : State :=
      { s with
          auctions := fun i =>
            if i = auction_id then { auction with active := false }
            else s.auctions i
          marketplace_stats :=
            { s.marketplace_stats with
                active_auctions := s.marketplace_stats.active_auctions - 1 } }
    if 0 < auction.bid_count ∧ auction.highest_bidder ≠ auction.seller then
      let marketplace_fee :=
        auction.current_bid * s.marketplace_fee_percent / 10000
      let seller_amount := auction.current_bid - marketplace_fee
      let nft_transfer : Transfer :=
        Transfer.esdt auction.highest_bidder auction.nft_token_id
          auction.nft_nonce 1
      let seller_transfer : Transfer :=
        payOut auction.payment_token auction.seller seller_amount
      let fee_transfers : List Transfer :=
        if marketplace_fee ≠ 0 then
          [payOut auction.payment_token s.owner marketplace_fee]
        else []
      Except.ok
        ({ s1 with
            marketplace_stats :=
              { s1.marketplace_stats with
                  total_sales := s1.marketplace_stats.total_sales + 1
                  total_volume :=
                    s1.marketplace_stats.total_volume + auction.current_bid
                  total_fees_collected :=
                    s1.marketplace_stats.total_fees_collected +
                      marketplace_fee } },
          nft_transfer :: seller_transfer :: fee_transfers)
    else
      Except.ok
        (s1,
          [Transfer.esdt auction.seller auction.nft_token_id
            auction.nft_nonce 1])

/-- Endpoint `cancelListing`: checks active and caller = seller (no time check),
returns the NFT to the seller, deactivates the listing, decrements the
active-listings statistic. -/
def cancel_listing (s : State) (caller : Address) (listing_id : Nat) :
    Except String (State × List Transfer) :=
  let listing := s.listings listing_id
  if ¬ listing.active = true then Except.error "Listing is not active"
  else if caller ≠ listing.seller then
    Except.error "Only seller can cancel listing"
  else
    Except.ok
      ({ s with
          listings := fun i =>
            if i = listing_id then { listing with active := false }
            else s.listings i
          marketplace_stats :=
            { s.marketplace_stats with
                active_listings := s.marketplace_stats.active_listings - 1 } },
        [Transfer.esdt listing.seller listing.nft_token_id listing.nft_nonce 1])

/-- One inbound call to a state-mutating endpoint, with its full
blockchain context (caller, block timestamp, attached payment). -/
inductive Op where
  | addSupportedToken (caller : Address)
      (token_id : EgldOrEsdtTokenIdentifier) : Op
  | createListing (caller : Address) (now : Nat) (payment : EsdtTokenPayment)
      (wine_nft_id : Nat) (price : Nat)
      (payment_token : EgldOrEsdtTokenIdentifier)
      (duration_seconds : Nat) : Op
  | buyWine (caller : Address) (now : Nat) (payment : EgldOrEsdtTokenPayment)
      (listing_id : Nat) : Op
  | createAuction (caller : Address) (now : Nat) (payment : EsdtTokenPayment)
      (wine_nft_id : Nat) (starting_price : Nat)
      (payment_token : EgldOrEsdtTokenIdentifier) (duration_seconds : Nat)
      (min_bid_increment : Nat) : Op
  | placeBid (caller : Address) (now : Nat) (payment : EgldOrEsdtTokenPayment)
      (auction_id : Nat) : Op
  | finalizeAuction (caller : Address) (now : Nat) (auction_id : Nat) : Op
  | cancelListing (caller : Address) (listing_id : Nat) : Op

/-- Dispatch an operation to its endpoint (dropping the returned id of the
create endpoints). -/
def execOp (s : State) (op : Op) : Except String (State × List Transfer) :=
  match op with
  | Op.addSupportedToken caller token_id =>
      add_supported_token s caller token_id
  | Op.createListing caller now payment wine_nft_id price payment_token
      duration_seconds =>
      (create_listing s caller now payment wine_nft_id price payment_token
        duration_seconds).map (fun r => (r.1, r.2.1))
  | Op.buyWine caller now payment listing_id =>
      buy_wine s caller now payment listing_id
  | Op.createAuction caller now payment wine_nft_id starting_price
      payment_token duration_seconds min_bid_increment =>
      (create_auction s caller now payment wine_nft_id starting_price
        payment_token duration_seconds min_bid_increment).map
        (fun r => (r.1, r.2.1))
  | Op.placeBid caller now payment auction_id =>
      place_bid s caller now payment auction_id
  | Op.finalizeAuction caller now auction_id =>
      finalize_auction s caller now auction_id
  | Op.cancelListing caller listing_id =>
      cancel_listing s caller listing_id

/-- A failed operation leaves the state unchanged (atomic abort); a
successful one commits its new state. -/
def applyOp (s : State) (op : Op) : State :=
  match execOp s op with
  | Except.ok r => r.1
  | Except.error _ => s

/-- Apply a sequence of operations in order. -/
def applyOps (s : State) (ops : List Op) : State := ops.foldl applyOp s

/-- A concrete active listing: price 100, native payment, seller 1. -/
def exListing : Listing :=
  { wine_nft_id := 7, nft_token_id := 7, nft_nonce := 5, seller := 1,
    price := 100, payment_token := EgldOrEsdtTokenIdentifier.egld,
    deadline := 1000, active := true, created_timestamp := 0 }

/-- A concrete active auction: starting price 50, increment 5, seller 1,
no bid yet (highest bidder = seller sentinel). -/
def exAuction : Auction :=
  { wine_nft_id := 8, nft_token_id := 8, nft_nonce := 6, seller := 1,
    starting_price := 50, current_bid := 50, highest_bidder := 1,
    payment_token := EgldOrEsdtTokenIdentifier.egld, end_timestamp := 1000,
    active := true, min_bid_increment := 5, bid_count := 0 }

/-- A concrete marketplace state: fee 250 bps, owner = address 0, one
active listing (id 1) and one active auction (id 1). -/
def exState : State :=
  { listings := fun i => if i = 1 then exListing else defaultListing
    auctions := fun i => if i = 1 then exAuction else defaultAuction
    seller_listings := fun a => if a = 1 then [1] else []
    seller_auctions := fun a => if a = 1 then [1] else []
    supported_payment_tokens := fun t =>
      decide (t = EgldOrEsdtTokenIdentifier.egld)
    marketplace_stats :=
      { total_listings := 1, total_sales := 0, total_volume := 0,
        total_fees_collected := 0, active_listings := 1, active_auctions := 1 }
    listing_counter := 2
    auction_counter := 2
    marketplace_fee_percent := 250
    wine_registry_address := 99
    owner := 0 }

/-! ### Further concrete data used by witnesses -/

/-- A native-currency payment of the given amount. -/
def pEgld (amount : Nat) : EgldOrEsdtTokenPayment :=
  { token_identifier := EgldOrEsdtTokenIdentifier.egld, token_nonce := 0,
    amount := amount }

/-- State `exAuction` after bidder 2 has bid 55 (Scenario B, first bid). -/
def exAuctionBid : Auction :=
  { exAuction with current_bid := 55, highest_bidder := 2, bid_count := 1 }

/-- State `exState` with the auction at id 1 carrying the real bid of
`exAuctionBid`. -/
def exState2 : State :=
  { exState with
      auctions := fun i => if i = 1 then exAuctionBid else defaultAuction }

example :
    (buy_wine exState 2 0
      { token_identifier := EgldOrEsdtTokenIdentifier.egld, token_nonce := 0,
        amount := 100 } 1).map Prod.snd =
    Except.ok [Transfer.esdt 2 7 5 1, Transfer.egld 1 98, Transfer.egld 0 2] :=
  rfl

example :
    (place_bid exState 2 500
      { token_identifier := EgldOrEsdtTokenIdentifier.egld, token_nonce := 0,
        amount := 55 } 1).map Prod.snd = Except.ok [] :=
  rfl

/-! ### Inversion lemmas: what a successful endpoint call did -/

theorem buy_wine_ok {s : State} {caller now : Nat}
    {payment : EgldOrEsdtTokenPayment} {listing_id : Nat} {s' : State}
    {tr : List Transfer}
    (h : buy_wine s caller now payment listing_id = Except.ok (s', tr)) :
    (s.listings listing_id).active = true ∧
    now ≤ (s.listings listing_id).deadline ∧
    payment.token_identifier = (s.listings listing_id).payment_token ∧
    (s.listings listing_id).price ≤ payment.amount ∧
    caller ≠ (s.listings listing_id).seller ∧
    (∀ i, s'.listings i =
      if i = listing_id then { s.listings listing_id with active := false }
      else s.listings i) ∧
    s'.auctions = s.auctions ∧
    s'.listing_counter = s.listing_counter ∧
    s'.auction_counter = s.auction_counter ∧
    s'.marketplace_stats.active_listings =
      s.marketplace_stats.active_listings - 1 ∧
    s'.marketplace_stats.total_sales = s.marketplace_stats.total_sales + 1 ∧
    tr =
      Transfer.esdt caller (s.listings listing_id).nft_token_id
          (s.listings listing_id).nft_nonce 1 ::
        payOut (s.listings listing_id).payment_token
          (s.listings listing_id).seller
          ((s.listings listing_id).price -
            (s.listings listing_id).price * s.marketplace_fee_percent / 10000) ::
        ((if (s.listings listing_id).price * s.marketplace_fee_percent / 10000 ≠ 0
          then
            [payOut (s.listings listing_id).payment_token s.owner
              ((s.listings listing_id).price * s.marketplace_fee_percent /
                10000)]
          else []) ++
          (if 0 < payment.amount - (s.listings listing_id).price then
            [payOut payment.token_identifier caller
              (payment.amount - (s.listings listing_id).price)]
          else [])) := by
  simp only [buy_wine] at h
  split at h
  · exact absurd h (by simp)
  · split at h
    · exact absurd h (by simp)
    · split at h
      · exact absurd h (by simp)
      · split at h
        · exact absurd h (by simp)
        · split at h
          · exact absurd h (by simp)
          · rename_i h1 h2 h3 h4 h5
            simp only [Except.ok.injEq, Prod.mk.injEq] at h
            obtain ⟨rfl, rfl⟩ := h
            refine ⟨by simpa using h1, by simpa using h2, by simpa using h3,
              by simpa using h4, h5, fun i => rfl, rfl, rfl, rfl, rfl, rfl, rfl⟩

theorem create_listing_ok {s : State} {caller now : Nat}
    {payment : EsdtTokenPayment} {wine_nft_id price : Nat}
    {payment_token : EgldOrEsdtTokenIdentifier} {duration_seconds : Nat}
    {s' : State} {tr : List Transfer} {id : Nat}
    (h : create_listing s caller now payment wine_nft_id price payment_token
      duration_seconds = Except.ok (s', tr, id)) :
    s.supported_payment_tokens payment_token = true ∧
    price ≠ 0 ∧ 3600 ≤ duration_seconds ∧ duration_seconds ≤ 2592000 ∧
    payment.amount = 1 ∧
    id = s.listing_counter ∧
    s'.listing_counter = s.listing_counter + 1 ∧
    s'.auction_counter = s.auction_counter ∧
    s'.auctions = s.auctions ∧
    (∀ i, s'.listings i =
      if i = s.listing_counter then
        { wine_nft_id := wine_nft_id, nft_token_id := payment.token_identifier,
          nft_nonce := payment.token_nonce, seller := caller, price := price,
          payment_token := payment_token, deadline := now + duration_seconds,
          active := true, created_timestamp := now }
      else s.listings i) ∧
    tr = [] := by
  simp only [create_listing] at h
  split at h
  · exact absurd h (by simp)
  · split at h
    · exact absurd h (by simp)
    · split at h
      · exact absurd h (by simp)
      · split at h
        · exact absurd h (by simp)
        · split at h
          · exact absurd h (by simp)
          · rename_i h1 h2 h3 h4 h5
            simp only [Except.ok.injEq, Prod.mk.injEq] at h
            obtain ⟨rfl, rfl, rfl⟩ := h
            refine ⟨by simpa using h1, h2, by omega, by omega,
              by simpa using h5, rfl, rfl, rfl, rfl, fun i => rfl, rfl⟩

theorem create_auction_ok {s : State} {caller now : Nat}
    {payment : EsdtTokenPayment} {wine_nft_id starting_price : Nat}
    {payment_token : EgldOrEsdtTokenIdentifier}
    {duration_seconds min_bid_increment : Nat}
    {s' : State} {tr : List Transfer} {id : Nat}
    (h : create_auction s caller now payment wine_nft_id starting_price
      payment_token duration_seconds min_bid_increment =
      Except.ok (s', tr, id)) :
    s.supported_payment_tokens payment_token = true ∧
    starting_price ≠ 0 ∧ 3600 ≤ duration_seconds ∧
    duration_seconds ≤ 604800 ∧ min_bid_increment ≠ 0 ∧
    payment.amount = 1 ∧
    id = s.auction_counter ∧
    s'.auction_counter = s.auction_counter + 1 ∧
    s'.listing_counter = s.listing_counter ∧
    s'.listings = s.listings ∧
    (∀ i, s'.auctions i =
      if i = s.auction_counter then
        { wine_nft_id := wine_nft_id, nft_token_id := payment.token_identifier,
          nft_nonce := payment.token_nonce, seller := caller,
          starting_price := starting_price, current_bid := starting_price,
          highest_bidder := caller, payment_token := payment_token,
          end_timestamp := now + duration_seconds, active := true,
          min_bid_increment := min_bid_increment, bid_count := 0 }
      else s.auctions i) ∧
    tr = [] := by
  simp only [create_auction] at h
  split at h
  · exact absurd h (by simp)
  · split at h
    · exact absurd h (by simp)
    · split at h
      · exact absurd h (by simp)
      · split at h
        · exact absurd h (by simp)
        · split at h
          · exact absurd h (by simp)
          · split at h
            · exact absurd h (by simp)
            · rename_i h1 h2 h3 h4 h5 h6
              simp only [Except.ok.injEq, Prod.mk.injEq] at h
              obtain ⟨rfl, rfl, rfl⟩ := h
              refine ⟨by simpa using h1, h2, by omega, by omega, h5,
                by simpa using h6, rfl, rfl, rfl, rfl, fun i => rfl, rfl⟩

theorem place_bid_ok {s : State} {caller now : Nat}
    {payment : EgldOrEsdtTokenPayment} {auction_id : Nat} {s' : State}
    {tr : List Transfer}
    (h : place_bid s caller now payment auction_id = Except.ok (s', tr)) :
    (s.auctions auction_id).active = true ∧
    now < (s.auctions auction_id).end_timestamp ∧
    payment.token_identifier = (s.auctions auction_id).payment_token ∧
    caller ≠ (s.auctions auction_id).seller ∧
    (s.auctions auction_id).current_bid +
      (s.auctions auction_id).min_bid_increment ≤ payment.amount ∧
    s'.listings = s.listings ∧
    s'.listing_counter = s.listing_counter ∧
    s'.auction_counter = s.auction_counter ∧
    s'.marketplace_stats = s.marketplace_stats ∧
    (∀ i, s'.auctions i =
      if i = auction_id then
        { s.auctions auction_id with
            current_bid := payment.amount
            highest_bidder := caller
            bid_count := (s.auctions auction_id).bid_count + 1
            end_timestamp :=
              if (s.auctions auction_id).end_timestamp - now < 600 then
                (s.auctions auction_id).end_timestamp + 600
              else (s.auctions auction_id).end_timestamp }
      else s.auctions i) ∧
    tr =
      (if (s.auctions auction_id).highest_bidder ≠
            (s.auctions auction_id).seller ∧
          0 < (s.auctions auction_id).bid_count then
        [payOut (s.auctions auction_id).payment_token
          (s.auctions auction_id).highest_bidder
          (s.auctions auction_id).current_bid]
      else []) := by
  simp only [place_bid] at h
  split at h
  · exact absurd h (by simp)
  · split at h
    · exact absurd h (by simp)
    · split at h
      · exact absurd h (by simp)
      · split at h
        · exact absurd h (by simp)
        · split at h
          · exact absurd h (by simp)
          · rename_i h1 h2 h3 h4 h5
            simp only [Except.ok.injEq, Prod.mk.injEq] at h
            obtain ⟨rfl, rfl⟩ := h
            refine ⟨by simpa using h1, by simpa using h2, by simpa using h3,
              h4, by omega, rfl, rfl, rfl, rfl, fun i => rfl, rfl⟩

theorem finalize_auction_ok {s : State} {caller now auction_id : Nat}
    {s' : State} {tr : List Transfer}
    (h : finalize_auction s caller now auction_id = Except.ok (s', tr)) :
    (s.auctions auction_id).active = true ∧
    (s.auctions auction_id).end_timestamp ≤ now ∧
    (caller = (s.auctions auction_id).seller ∨
      caller = (s.auctions auction_id).highest_bidder) ∧
    s'.listings = s.listings ∧
    s'.listing_counter = s.listing_counter ∧
    s'.auction_counter = s.auction_counter ∧
    (∀ i, s'.auctions i =
      if i = auction_id then { s.auctions auction_id with active := false }
      else s.auctions i) ∧
    s'.marketplace_stats.active_auctions =
      s.marketplace_stats.active_auctions - 1 ∧
    (0 < (s.auctions auction_id).bid_count ∧
        (s.auctions auction_id).highest_bidder ≠
          (s.auctions auction_id).seller →
      tr =
        Transfer.esdt (s.auctions auction_id).highest_bidder
            (s.auctions auction_id).nft_token_id
            (s.auctions auction_id).nft_nonce 1 ::
          payOut (s.auctions auction_id).payment_token
            (s.auctions auction_id).seller
            ((s.auctions auction_id).current_bid -
              (s.auctions auction_id).current_bid *
                s.marketplace_fee_percent / 10000) ::
          (if (s.auctions auction_id).current_bid *
              s.marketplace_fee_percent / 10000 ≠ 0 then
            [payOut (s.auctions auction_id).payment_token s.owner
              ((s.auctions auction_id).current_bid *
                s.marketplace_fee_percent / 10000)]
          else []) ∧
      s'.marketplace_stats.total_sales =
        s.marketplace_stats.total_sales + 1) ∧
    (¬ (0 < (s.auctions auction_id).bid_count ∧
        (s.auctions auction_id).highest_bidder ≠
          (s.auctions auction_id).seller) →
      tr =
        [Transfer.esdt (s.auctions auction_id).seller
          (s.auctions auction_id).nft_token_id
          (s.auctions auction_id).nft_nonce 1] ∧
      s'.marketplace_stats.total_sales = s.marketplace_stats.total_sales) := by
  simp only [finalize_auction] at h
  split at h
  · exact absurd h (by simp)
  · split at h
    · exact absurd h (by simp)
    · split at h
      · exact absurd h (by simp)
      · rename_i h1 h2 h3
        split at h
        · rename_i hbid
          simp only [Except.ok.injEq, Prod.mk.injEq] at h
          obtain ⟨rfl, rfl⟩ := h
          refine ⟨by simpa using h1, by omega, by tauto, rfl, rfl,
            rfl, fun i => rfl, rfl, fun _ => ⟨rfl, rfl⟩,
            fun hc => absurd hbid hc⟩
        · rename_i hbid
          simp only [Except.ok.injEq, Prod.mk.injEq] at h
          obtain ⟨rfl, rfl⟩ := h
          refine ⟨by simpa using h1, by omega, by tauto, rfl, rfl,
            rfl, fun i => rfl, rfl, fun hc => absurd hc hbid,
            fun _ => ⟨rfl, rfl⟩⟩

theorem cancel_listing_ok {s : State} {caller listing_id : Nat} {s' : State}
    {tr : List Transfer}
    (h : cancel_listing s caller listing_id = Except.ok (s', tr)) :
    (s.listings listing_id).active = true ∧
    caller = (s.listings listing_id).seller ∧
    (∀ i, s'.listings i =
      if i = listing_id then { s.listings listing_id with active := false }
      else s.listings i) ∧
    s'.auctions = s.auctions ∧
    s'.listing_counter = s.listing_counter ∧
    s'.auction_counter = s.auction_counter ∧
    s'.marketplace_stats.active_listings =
      s.marketplace_stats.active_listings - 1 ∧
    s'.marketplace_stats.total_sales = s.marketplace_stats.total_sales ∧
    tr =
      [Transfer.esdt (s.listings listing_id).seller
        (s.listings listing_id).nft_token_id
        (s.listings listing_id).nft_nonce 1] := by
  simp only [cancel_listing] at h
  split at h
  · exact absurd h (by simp)
  · split at h
    · exact absurd h (by simp)
    · rename_i h1 h2
      simp only [Except.ok.injEq, Prod.mk.injEq] at h
      obtain ⟨rfl, rfl⟩ := h
      refine ⟨by simpa using h1, by simpa using h2, fun i => rfl, rfl, rfl,
        rfl, rfl, rfl, rfl⟩

theorem add_supported_token_ok {s : State} {caller : Nat}
    {token_id : EgldOrEsdtTokenIdentifier} {s' : State} {tr : List Transfer}
    (h : add_supported_token s caller token_id = Except.ok (s', tr)) :
    s'.listings = s.listings ∧ s'.auctions = s.auctions ∧
    s'.listing_counter = s.listing_counter ∧
    s'.auction_counter = s.auction_counter ∧
    s'.marketplace_stats = s.marketplace_stats ∧ tr = [] := by
  simp only [add_supported_token] at h
  split at h
  · exact absurd h (by simp)
  · simp only [Except.ok.injEq, Prod.mk.injEq] at h
    obtain ⟨rfl, rfl⟩ := h
    exact ⟨rfl, rfl, rfl, rfl, rfl, rfl⟩

/-! ### Step and trace lemmas -/

theorem applyOp_of_ok {s : State} {op : Op} {r : State × List Transfer}
    (h : execOp s op = Except.ok r) : applyOp s op = r.1 := by
  unfold applyOp; rw [h]

theorem applyOp_of_error {s : State} {op : Op} {e : String}
    (h : execOp s op = Except.error e) : applyOp s op = s := by
  unfold applyOp; rw [h]

theorem except_map_ok {α β γ : Type} {f : α → β} {x : Except γ α} {b : β}
    (h : Except.map f x = Except.ok b) :
    ∃ a, x = Except.ok a ∧ b = f a := by
  cases x with
  | error e => simp [Except.map] at h
  | ok a =>
    refine ⟨a, rfl, ?_⟩
    simpa [Except.map] using h.symm

/-- What one operation can do to the counters, to an already-created
listing (id below the counter) and to an already-created auction:
counters never decrease, an inactive listing stays inactive, and an
auction's starting price is untouched while its current bid and end
timestamp never decrease and its `active` flag never turns back on. -/
theorem applyOp_step (s : State) (op : Op) :
    s.listing_counter ≤ (applyOp s op).listing_counter ∧
    s.auction_counter ≤ (applyOp s op).auction_counter ∧
    (∀ i, i < s.listing_counter → (s.listings i).active = false →
      ((applyOp s op).listings i).active = false) ∧
    (∀ j, j < s.auction_counter →
      ((applyOp s op).auctions j).starting_price =
        (s.auctions j).starting_price ∧
      (s.auctions j).current_bid ≤ ((applyOp s op).auctions j).current_bid ∧
      (s.auctions j).end_timestamp ≤
        ((applyOp s op).auctions j).end_timestamp ∧
      ((s.auctions j).active = false →
        ((applyOp s op).auctions j).active = false)) := by
  cases hE : execOp s op with
  | error e =>
    rw [applyOp_of_error hE]
    exact ⟨le_rfl, le_rfl, fun _ _ h => h,
      fun _ _ => ⟨rfl, le_rfl, le_rfl, fun h => h⟩⟩
  | ok r =>
    rw [applyOp_of_ok hE]
    obtain ⟨s', tr⟩ := r
    dsimp only
    cases op with
    | addSupportedToken caller token_id =>
      simp only [execOp] at hE
      obtain ⟨hl, ha, hlc, hac, _, _⟩ := add_supported_token_ok hE
      exact ⟨hlc.symm.le, hac.symm.le,
        fun i _ h => by rw [hl]; exact h,
        fun j _ => by rw [ha]; exact ⟨rfl, le_rfl, le_rfl, fun h => h⟩⟩
    | createListing caller now payment wine_nft_id price payment_token
        duration_seconds =>
      simp only [execOp] at hE
      obtain ⟨⟨s2, tr2, id2⟩, hC, hr⟩ := except_map_ok hE
      simp only [Prod.mk.injEq] at hr
      obtain ⟨rfl, -⟩ := hr
      obtain ⟨-, -, -, -, -, -, hlc, hac, ha, hlist, -⟩ := create_listing_ok hC
      refine ⟨by omega, hac.symm.le,
        fun i hi h => ?_,
        fun j _ => by rw [ha]; exact ⟨rfl, le_rfl, le_rfl, fun h => h⟩⟩
      rw [hlist i, if_neg (by omega)]
      exact h
    | buyWine caller now payment listing_id =>
      simp only [execOp] at hE
      obtain ⟨-, -, -, -, -, hlist, ha, hlc, hac, -, -, -⟩ := buy_wine_ok hE
      refine ⟨hlc.symm.le, hac.symm.le, fun i _ h => ?_,
        fun j _ => by rw [ha]; exact ⟨rfl, le_rfl, le_rfl, fun h => h⟩⟩
      rw [hlist i]
      split
      · rfl
      · exact h
    | createAuction caller now payment wine_nft_id starting_price
        payment_token duration_seconds min_bid_increment =>
      simp only [execOp] at hE
      obtain ⟨⟨s2, tr2, id2⟩, hC, hr⟩ := except_map_ok hE
      simp only [Prod.mk.injEq] at hr
      obtain ⟨rfl, -⟩ := hr
      obtain ⟨-, -, -, -, -, -, -, hac, hlc, hl, hauc, -⟩ :=
        create_auction_ok hC
      refine ⟨hlc.symm.le, by omega,
        fun i _ h => by rw [hl]; exact h, fun j hj => ?_⟩
      rw [hauc j, if_neg (by omega)]
      exact ⟨rfl, le_rfl, le_rfl, fun h => h⟩
    | placeBid caller now payment auction_id =>
      simp only [execOp] at hE
      obtain ⟨-, -, -, -, hmin, hl, hlc, hac, -, hauc, -⟩ := place_bid_ok hE
      refine ⟨hlc.symm.le, hac.symm.le,
        fun i _ h => by rw [hl]; exact h, fun j _ => ?_⟩
      rw [hauc j]
      split
      · rename_i hj
        subst hj
        refine ⟨rfl, ?_, ?_, fun h => h⟩
        · show (s.auctions j).current_bid ≤ payment.amount
          omega
        · show (s.auctions j).end_timestamp ≤
            if (s.auctions j).end_timestamp - now < 600 then
              (s.auctions j).end_timestamp + 600
            else (s.auctions j).end_timestamp
          split <;> omega
      · exact ⟨rfl, le_rfl, le_rfl, fun h => h⟩
    | finalizeAuction caller now auction_id =>
      simp only [execOp] at hE
      obtain ⟨-, -, -, hl, hlc, hac, hauc, -, -, -⟩ := finalize_auction_ok hE
      refine ⟨hlc.symm.le, hac.symm.le,
        fun i _ h => by rw [hl]; exact h, fun j _ => ?_⟩
      rw [hauc j]
      split
      · rename_i hj
        subst hj
        exact ⟨rfl, le_rfl, le_rfl, fun _ => rfl⟩
      · exact ⟨rfl, le_rfl, le_rfl, fun h => h⟩
    | cancelListing caller listing_id =>
      simp only [execOp] at hE
      obtain ⟨-, -, hlist, ha, hlc, hac, -, -, -⟩ := cancel_listing_ok hE
      refine ⟨hlc.symm.le, hac.symm.le, fun i _ h => ?_,
        fun j _ => by rw [ha]; exact ⟨rfl, le_rfl, le_rfl, fun h => h⟩⟩
      rw [hlist i]
      split
      · rfl
      · exact h

/-- Lemma `applyOp_step` lifted to arbitrary operation sequences. -/
theorem applyOps_step (s : State) (ops : List Op) :
    s.listing_counter ≤ (applyOps s ops).listing_counter ∧
    s.auction_counter ≤ (applyOps s ops).auction_counter ∧
    (∀ i, i < s.listing_counter → (s.listings i).active = false →
      ((applyOps s ops).listings i).active = false) ∧
    (∀ j, j < s.auction_counter →
      ((applyOps s ops).auctions j).starting_price =
        (s.auctions j).starting_price ∧
      (s.auctions j).current_bid ≤ ((applyOps s ops).auctions j).current_bid ∧
      (s.auctions j).end_timestamp ≤
        ((applyOps s ops).auctions j).end_timestamp ∧
      ((s.auctions j).active = false →
        ((applyOps s ops).auctions j).active = false)) := by
  induction ops generalizing s with
  | nil =>
    exact ⟨le_rfl, le_rfl, fun _ _ h => h,
      fun _ _ => ⟨rfl, le_rfl, le_rfl, fun h => h⟩⟩
  | cons op ops ih =>
    obtain ⟨hlc1, hac1, hli1, hau1⟩ := applyOp_step s op
    obtain ⟨hlc2, hac2, hli2, hau2⟩ := ih (applyOp s op)
    have hfold : applyOps s (op :: ops) = applyOps (applyOp s op) ops := rfl
    rw [hfold]
    refine ⟨le_trans hlc1 hlc2, le_trans hac1 hac2, fun i hi h => ?_,
      fun j hj => ?_⟩
    · exact hli2 i (lt_of_lt_of_le hi hlc1) (hli1 i hi h)
    · obtain ⟨e1, b1, t1, a1⟩ := hau1 j hj
      obtain ⟨e2, b2, t2, a2⟩ := hau2 j (lt_of_lt_of_le hj hac1)
      exact ⟨e2.trans e1, le_trans b1 b2, le_trans t1 t2,
        fun h => a2 (a1 h)⟩

/-- The sentinel invariant — once an auction has a real bid
(`bid_count > 0`) its highest bidder differs from its seller — is
preserved by every single operation. -/
theorem applyOp_sentinel (s : State) (op : Op) (i : Nat)
    (h : 0 < (s.auctions i).bid_count →
      (s.auctions i).highest_bidder ≠ (s.auctions i).seller) :
    0 < ((applyOp s op).auctions i).bid_count →
      ((applyOp s op).auctions i).highest_bidder ≠
        ((applyOp s op).auctions i).seller := by
  cases hE : execOp s op with
  | error e =>
    rw [applyOp_of_error hE]
    exact h
  | ok r =>
    rw [applyOp_of_ok hE]
    obtain ⟨s', tr⟩ := r
    dsimp only
    cases op with
    | addSupportedToken caller token_id =>
      simp only [execOp] at hE
      obtain ⟨-, ha, -⟩ := add_supported_token_ok hE
      rw [ha]
      exact h
    | createListing caller now payment wine_nft_id price payment_token
        duration_seconds =>
      simp only [execOp] at hE
      obtain ⟨⟨s2, tr2, id2⟩, hC, hr⟩ := except_map_ok hE
      simp only [Prod.mk.injEq] at hr
      obtain ⟨rfl, -⟩ := hr
      obtain ⟨-, -, -, -, -, -, -, -, ha, -⟩ := create_listing_ok hC
      rw [ha]
      exact h
    | buyWine caller now payment listing_id =>
      simp only [execOp] at hE
      obtain ⟨-, -, -, -, -, -, ha, -⟩ := buy_wine_ok hE
      rw [ha]
      exact h
    | createAuction caller now payment wine_nft_id starting_price
        payment_token duration_seconds min_bid_increment =>
      simp only [execOp] at hE
      obtain ⟨⟨s2, tr2, id2⟩, hC, hr⟩ := except_map_ok hE
      simp only [Prod.mk.injEq] at hr
      obtain ⟨rfl, -⟩ := hr
      obtain ⟨-, -, -, -, -, -, -, -, -, -, hauc, -⟩ := create_auction_ok hC
      rw [hauc i]
      split
      · intro hbc
        exact absurd hbc (by simp)
      · exact h
    | placeBid caller now payment auction_id =>
      simp only [execOp] at hE
      obtain ⟨-, -, -, hns, -, -, -, -, -, hauc, -⟩ := place_bid_ok hE
      rw [hauc i]
      split
      · rename_i hji
        subst hji
        intro _
        exact hns
      · exact h
    | finalizeAuction caller now auction_id =>
      simp only [execOp] at hE
      obtain ⟨-, -, -, -, -, -, hauc, -⟩ := finalize_auction_ok hE
      rw [hauc i]
      split
      · rename_i hji
        subst hji
        exact h
      · exact h
    | cancelListing caller listing_id =>
      simp only [execOp] at hE
      obtain ⟨-, -, -, ha, -⟩ := cancel_listing_ok hE
      rw [ha]
      exact h

/-- The sentinel invariant lifted to operation sequences: it holds in
every state reachable from one that satisfies it — in particular from a
fresh deployment, where every auction slot is the all-zero default. -/
theorem applyOps_sentinel (s : State) (ops : List Op) (i : Nat)
    (h : 0 < (s.auctions i).bid_count →
      (s.auctions i).highest_bidder ≠ (s.auctions i).seller) :
    0 < ((applyOps s ops).auctions i).bid_count →
      ((applyOps s ops).auctions i).highest_bidder ≠
        ((applyOps s ops).auctions i).seller := by
  induction ops generalizing s with
  | nil => exact h
  | cons op ops ih => exact ih (applyOp s op) (applyOp_sentinel s op i h)

/-! ### Claims -/

/-- C1, counterexample.  In the state `exState` the listing at id 1 has
price 100 and the configured fee is 250 bps; a successful `buyWine` with
attached payment 100 transfers 98 to the seller (address 1) and 2 to the
fee recipient (owner, address 0) — not 97 and 3 as the claim states. -/
theorem C1_counterexample :
    (exState.listings 1).price = 100 ∧
    exState.marketplace_fee_percent = 250 ∧
    (exState.listings 1).seller = 1 ∧ exState.owner = 0 ∧
    (buy_wine exState 2 0 (pEgld 100) 1).map Prod.snd =
      Except.ok [Transfer.esdt 2 7 5 1, Transfer.egld 1 98,
        Transfer.egld 0 2] ∧
    ¬ (buy_wine exState 2 0 (pEgld 100) 1).map Prod.snd =
      Except.ok [Transfer.esdt 2 7 5 1, Transfer.egld 1 97,
        Transfer.egld 0 3] := by
  refine ⟨rfl, rfl, rfl, rfl, rfl, fun h => ?_⟩
  rw [show (buy_wine exState 2 0 (pEgld 100) 1).map Prod.snd =
      Except.ok [Transfer.esdt 2 7 5 1, Transfer.egld 1 98,
        Transfer.egld 0 2] from rfl] at h
  exact absurd (Except.ok.inj h) (by decide)

/-- C1, amended.  For a listing with price 100 under fee rate 250 bps, a
successful `buyWine` with attached payment 100 pays the seller 98, pays
the fee recipient 2, sets the listing inactive, decrements
`active_listings` by 1 and increments `total_sales` by 1. -/
theorem C1_amended_scenario (s : State) (buyer now id : Nat)
    (hact : (s.listings id).active = true)
    (hprice : (s.listings id).price = 100)
    (hfee : s.marketplace_fee_percent = 250)
    (htime : now ≤ (s.listings id).deadline)
    (hbuyer : buyer ≠ (s.listings id).seller)
    (hcount : 1 ≤ s.marketplace_stats.active_listings) :
    ∃ s' tr,
      buy_wine s buyer now
        { token_identifier := (s.listings id).payment_token, token_nonce := 0,
          amount := 100 } id = Except.ok (s', tr) ∧
      tr.get? 1 =
        some (payOut (s.listings id).payment_token (s.listings id).seller 98) ∧
      tr.get? 2 = some (payOut (s.listings id).payment_token s.owner 2) ∧
      (s'.listings id).active = false ∧
      s'.marketplace_stats.active_listings + 1 =
        s.marketplace_stats.active_listings ∧
      s'.marketplace_stats.total_sales =
        s.marketplace_stats.total_sales + 1 := by
  cases hres : buy_wine s buyer now
      { token_identifier := (s.listings id).payment_token, token_nonce := 0,
        amount := 100 } id with
  | error e =>
    exfalso
    simp only [buy_wine] at hres
    rw [if_neg (by simp [hact]), if_neg (by simpa using htime),
      if_neg (by simp), if_neg (by omega), if_neg hbuyer] at hres
    exact Except.noConfusion hres
  | ok r =>
    obtain ⟨s', tr⟩ := r
    obtain ⟨-, -, -, -, -, hlist, -, -, -, hdec, hsales, htr⟩ :=
      buy_wine_ok hres
    refine ⟨s', tr, rfl, ?_, ?_, ?_, ?_, hsales⟩
    · rw [htr, hprice, hfee]
      norm_num [List.get?]
    · rw [htr, hprice, hfee]
      norm_num [List.get?]
    · rw [hlist id, if_pos rfl]
    · rw [hdec]
      omega

/-- C1 witness for the amended claim, at the concrete state `exState`. -/
theorem C1_amended_witness :
    (exState.listings 1).active = true ∧ (exState.listings 1).price = 100 ∧
    exState.marketplace_fee_percent = 250 ∧
    ∃ s' tr,
      buy_wine exState 2 0
        { token_identifier := (exState.listings 1).payment_token,
          token_nonce := 0, amount := 100 } 1 = Except.ok (s', tr) ∧
      tr.get? 1 =
        some (payOut (exState.listings 1).payment_token
          (exState.listings 1).seller 98) ∧
      tr.get? 2 = some (payOut (exState.listings 1).payment_token
        exState.owner 2) ∧
      (s'.listings 1).active = false ∧
      s'.marketplace_stats.active_listings + 1 =
        exState.marketplace_stats.active_listings ∧
      s'.marketplace_stats.total_sales =
        exState.marketplace_stats.total_sales + 1 :=
  ⟨rfl, rfl, rfl,
    C1_amended_scenario exState 2 0 1 rfl rfl rfl (by decide) (by decide)
      (by decide)⟩

/-- C2: for every successful sale (`buyWine`) and every
`finalizeAuction` with a real bid, the seller's payout plus the fee paid
to the fee recipient equals the price exactly, with
`fee = price * feeBps / 10000` in exact integer arithmetic. -/
theorem C2_fee_plus_net (s : State)
    (hfee : s.marketplace_fee_percent ≤ 1000) :
    (∀ caller now payment listing_id s' tr,
      buy_wine s caller now payment listing_id = Except.ok (s', tr) →
      ∃ fee net,
        fee = (s.listings listing_id).price * s.marketplace_fee_percent /
          10000 ∧
        tr.get? 1 = some (payOut (s.listings listing_id).payment_token
          (s.listings listing_id).seller net) ∧
        (fee ≠ 0 → tr.get? 2 = some (payOut
          (s.listings listing_id).payment_token s.owner fee)) ∧
        fee + net = (s.listings listing_id).price) ∧
    (∀ caller now auction_id s' tr,
      finalize_auction s caller now auction_id = Except.ok (s', tr) →
      0 < (s.auctions auction_id).bid_count →
      (s.auctions auction_id).highest_bidder ≠
        (s.auctions auction_id).seller →
      ∃ fee net,
        fee = (s.auctions auction_id).current_bid *
          s.marketplace_fee_percent / 10000 ∧
        tr.get? 1 = some (payOut (s.auctions auction_id).payment_token
          (s.auctions auction_id).seller net) ∧
        (fee ≠ 0 → tr.get? 2 = some (payOut
          (s.auctions auction_id).payment_token s.owner fee)) ∧
        fee + net = (s.auctions auction_id).current_bid) := by
  have hdiv : ∀ p : Nat, p * s.marketplace_fee_percent / 10000 ≤ p := by
    intro p
    have h1 : p * s.marketplace_fee_percent ≤ p * 10000 :=
      Nat.mul_le_mul_left p (by omega)
    have h2 : p * s.marketplace_fee_percent / 10000 ≤ p * 10000 / 10000 :=
      Nat.div_le_div_right h1
    rwa [Nat.mul_div_cancel p (by norm_num)] at h2
  constructor
  · intro caller now payment listing_id s' tr h
    obtain ⟨-, -, -, -, -, -, -, -, -, -, -, htr⟩ := buy_wine_ok h
    refine ⟨(s.listings listing_id).price * s.marketplace_fee_percent / 10000,
      (s.listings listing_id).price -
        (s.listings listing_id).price * s.marketplace_fee_percent / 10000,
      rfl, ?_, ?_, ?_⟩
    · rw [htr]; rfl
    · intro hne
      rw [htr]
      simp only [List.get?, if_pos hne]
    · have := hdiv (s.listings listing_id).price
      omega
  · intro caller now auction_id s' tr h hbc hhb
    obtain ⟨-, -, -, -, -, -, -, -, hsold, -⟩ := finalize_auction_ok h
    obtain ⟨htr, -⟩ := hsold ⟨hbc, hhb⟩
    refine ⟨(s.auctions auction_id).current_bid *
        s.marketplace_fee_percent / 10000,
      (s.auctions auction_id).current_bid -
        (s.auctions auction_id).current_bid *
          s.marketplace_fee_percent / 10000,
      rfl, ?_, ?_, ?_⟩
    · rw [htr]; rfl
    · intro hne
      rw [htr]
      simp only [List.get?, if_pos hne]
    · have := hdiv (s.auctions auction_id).current_bid
      omega

/-- C2 witness: the sale of `exState`'s listing 1 (price 100, fee 250
bps) satisfies the fee invariant. -/
theorem C2_witness :
    exState.marketplace_fee_percent ≤ 1000 ∧
    ∃ fee net,
      fee = (exState.listings 1).price * exState.marketplace_fee_percent /
        10000 ∧
      [Transfer.esdt 2 7 5 1, Transfer.egld 1 98, Transfer.egld 0 2].get? 1 =
        some (payOut (exState.listings 1).payment_token
          (exState.listings 1).seller net) ∧
      (fee ≠ 0 → [Transfer.esdt 2 7 5 1, Transfer.egld 1 98,
        Transfer.egld 0 2].get? 2 =
        some (payOut (exState.listings 1).payment_token exState.owner fee)) ∧
      fee + net = (exState.listings 1).price :=
  ⟨by decide,
    (C2_fee_plus_net exState (by decide)).1 2 0 (pEgld 100) 1 _
      [Transfer.esdt 2 7 5 1, Transfer.egld 1 98, Transfer.egld 0 2] rfl⟩

/-- C3: on every successful `placeBid`, if less than 600 seconds remain
the auction's end timestamp is extended by exactly 600 seconds, and
otherwise it is unchanged; the rule re-applies on every qualifying late
bid. -/
theorem C3_anti_sniping (s : State) (caller now : Nat)
    (payment : EgldOrEsdtTokenPayment) (auction_id : Nat) (s' : State)
    (tr : List Transfer)
    (h : place_bid s caller now payment auction_id = Except.ok (s', tr)) :
    ((s.auctions auction_id).end_timestamp - now < 600 →
      (s'.auctions auction_id).end_timestamp =
        (s.auctions auction_id).end_timestamp + 600) ∧
    (600 ≤ (s.auctions auction_id).end_timestamp - now →
      (s'.auctions auction_id).end_timestamp =
        (s.auctions auction_id).end_timestamp) := by
  obtain ⟨-, -, -, -, -, -, -, -, -, hauc, -⟩ := place_bid_ok h
  rw [hauc auction_id, if_pos rfl]
  constructor
  · intro hlt
    show (if (s.auctions auction_id).end_timestamp - now < 600 then
        (s.auctions auction_id).end_timestamp + 600
      else (s.auctions auction_id).end_timestamp) = _
    rw [if_pos hlt]
  · intro hge
    show (if (s.auctions auction_id).end_timestamp - now < 600 then
        (s.auctions auction_id).end_timestamp + 600
      else (s.auctions auction_id).end_timestamp) = _
    rw [if_neg (by omega)]

/-- C3 witness: bidding at time 500 on the auction ending at 1000 (less
than 600 seconds left) extends the end to 1600. -/
theorem C3_witness :
    (exState.auctions 1).end_timestamp - 500 < 600 ∧
    ((applyOp exState (Op.placeBid 2 500 (pEgld 55) 1)).auctions
      1).end_timestamp = (exState.auctions 1).end_timestamp + 600 := by
  refine ⟨by decide, ?_⟩
  exact (C3_anti_sniping exState 2 500 (pEgld 55) 1
    (applyOp exState (Op.placeBid 2 500 (pEgld 55) 1)) [] rfl).1 (by decide)

/-- C4: a successful `placeBid` on an auction with a real prior bid
(`bid_count > 0`, whose highest bidder is then not the seller sentinel)
transfers exactly the prior `current_bid` to the prior `highest_bidder`;
with `bid_count = 0` no refund transfer occurs. -/
theorem C4_refund (s : State) (caller now : Nat)
    (payment : EgldOrEsdtTokenPayment) (auction_id : Nat) (s' : State)
    (tr : List Transfer)
    (hreal : 0 < (s.auctions auction_id).bid_count →
      (s.auctions auction_id).highest_bidder ≠ (s.auctions auction_id).seller)
    (h : place_bid s caller now payment auction_id = Except.ok (s', tr)) :
    (0 < (s.auctions auction_id).bid_count →
      tr = [payOut (s.auctions auction_id).payment_token
        (s.auctions auction_id).highest_bidder
        (s.auctions auction_id).current_bid]) ∧
    ((s.auctions auction_id).bid_count = 0 → tr = []) := by
  obtain ⟨-, -, -, -, -, -, -, -, -, -, htr⟩ := place_bid_ok h
  constructor
  · intro hbc
    rw [htr, if_pos ⟨hreal hbc, hbc⟩]
  · intro hbc
    rw [htr, if_neg (by omega)]

/-- C4 witness (Scenario B): bidder 3 outbids with 61 on the auction
where bidder 2 holds the bid of 55; bidder 2 is refunded exactly 55. -/
theorem C4_witness :
    0 < (exState2.auctions 1).bid_count ∧
    (exState2.auctions 1).highest_bidder ≠ (exState2.auctions 1).seller ∧
    (exState2.auctions 1).current_bid = 55 ∧
    (place_bid exState2 3 500 (pEgld 61) 1).map Prod.snd =
      Except.ok [Transfer.egld 2 55] := by
  refine ⟨by decide, by decide, rfl, ?_⟩
  have h := (C4_refund exState2 3 500 (pEgld 61) 1
    (applyOp exState2 (Op.placeBid 3 500 (pEgld 61) 1)) [Transfer.egld 2 55]
    (fun _ => by decide) rfl).1 (by decide)
  rfl

/-- C5: an entity whose `active` flag is `false` stays inactive under
every subsequent operation sequence (the true→false transition is
terminal), and every state-mutating endpoint aimed at an inactive entity
is rejected, leaving the state unchanged with no transfers. -/
theorem C5_terminal_inactive (s : State) (ops : List Op) (i j : Nat)
    (hi : i < s.listing_counter) (hj : j < s.auction_counter)
    (hli : (s.listings i).active = false)
    (haj : (s.auctions j).active = false) :
    ((applyOps s ops).listings i).active = false ∧
    ((applyOps s ops).auctions j).active = false ∧
    (∀ caller now payment,
      buy_wine s caller now payment i =
        Except.error "Listing is not active" ∧
      applyOp s (Op.buyWine caller now payment i) = s) ∧
    (∀ caller, cancel_listing s caller i =
        Except.error "Listing is not active" ∧
      applyOp s (Op.cancelListing caller i) = s) ∧
    (∀ caller now payment,
      place_bid s caller now payment j =
        Except.error "Auction is not active" ∧
      applyOp s (Op.placeBid caller now payment j) = s) ∧
    (∀ caller now, finalize_auction s caller now j =
        Except.error "Auction is not active" ∧
      applyOp s (Op.finalizeAuction caller now j) = s) := by
  obtain ⟨-, -, hlist, hauct⟩ := applyOps_step s ops
  have hbuy : ∀ caller now payment,
      buy_wine s caller now payment i =
        Except.error "Listing is not active" := by
    intro caller now payment
    simp only [buy_wine]
    rw [if_pos (by simp [hli])]
  have hcancel : ∀ caller,
      cancel_listing s caller i = Except.error "Listing is not active" := by
    intro caller
    simp only [cancel_listing]
    rw [if_pos (by simp [hli])]
  have hbid : ∀ caller now payment,
      place_bid s caller now payment j =
        Except.error "Auction is not active" := by
    intro caller now payment
    simp only [place_bid]
    rw [if_pos (by simp [haj])]
  have hfin : ∀ caller now,
      finalize_auction s caller now j =
        Except.error "Auction is not active" := by
    intro caller now
    simp only [finalize_auction]
    rw [if_pos (by simp [haj])]
  refine ⟨hlist i hi hli, (hauct j hj).2.2.2 haj,
    fun caller now payment => ⟨hbuy caller now payment,
      applyOp_of_error (hbuy caller now payment)⟩,
    fun caller => ⟨hcancel caller, applyOp_of_error (hcancel caller)⟩,
    fun caller now payment => ⟨hbid caller now payment,
      applyOp_of_error (hbid caller now payment)⟩,
    fun caller now => ⟨hfin caller now,
      applyOp_of_error (hfin caller now)⟩⟩

/-- C5 witness: the never-activated slots 0 of `exState` stay inactive
across an operation sequence, and `buyWine` on the inactive listing 0 is
rejected without touching the state. -/
theorem C5_witness :
    ((applyOps exState [Op.buyWine 2 0 (pEgld 100) 1,
      Op.placeBid 2 500 (pEgld 55) 1]).listings 0).active = false ∧
    buy_wine exState 2 0 (pEgld 100) 0 =
      Except.error "Listing is not active" ∧
    applyOp exState (Op.buyWine 2 0 (pEgld 100) 0) = exState := by
  have h := C5_terminal_inactive exState
    [Op.buyWine 2 0 (pEgld 100) 1, Op.placeBid 2 500 (pEgld 55) 1] 0 0
    (by decide) (by decide) (by decide) (by decide)
  exact ⟨h.1, (h.2.2.1 2 0 (pEgld 100)).1, (h.2.2.1 2 0 (pEgld 100)).2⟩

/-- C6: for every created auction and every operation sequence, the
current bid never decreases and never drops below the starting price,
and the end timestamp never decreases. -/
theorem C6_auction_monotone (s : State) (ops : List Op) (j : Nat)
    (hj : j < s.auction_counter)
    (hsp : (s.auctions j).starting_price ≤ (s.auctions j).current_bid) :
    (s.auctions j).current_bid ≤ ((applyOps s ops).auctions j).current_bid ∧
    ((applyOps s ops).auctions j).starting_price ≤
      ((applyOps s ops).auctions j).current_bid ∧
    (s.auctions j).end_timestamp ≤
      ((applyOps s ops).auctions j).end_timestamp := by
  obtain ⟨-, -, -, hau⟩ := applyOps_step s ops
  obtain ⟨e, b, t, -⟩ := hau j hj
  exact ⟨b, by rw [e]; omega, t⟩

/-- C6 witness: after bids of 55 and 61 on `exState`'s auction 1
(starting price 50), the monotonicity facts hold concretely. -/
theorem C6_witness :
    (exState.auctions 1).starting_price ≤ (exState.auctions 1).current_bid ∧
    (exState.auctions 1).current_bid ≤
      ((applyOps exState [Op.placeBid 2 500 (pEgld 55) 1,
        Op.placeBid 3 550 (pEgld 61) 1]).auctions 1).current_bid ∧
    ((applyOps exState [Op.placeBid 2 500 (pEgld 55) 1,
        Op.placeBid 3 550 (pEgld 61) 1]).auctions 1).starting_price ≤
      ((applyOps exState [Op.placeBid 2 500 (pEgld 55) 1,
        Op.placeBid 3 550 (pEgld 61) 1]).auctions 1).current_bid ∧
    (exState.auctions 1).end_timestamp ≤
      ((applyOps exState [Op.placeBid 2 500 (pEgld 55) 1,
        Op.placeBid 3 550 (pEgld 61) 1]).auctions 1).end_timestamp := by
  have h := C6_auction_monotone exState
    [Op.placeBid 2 500 (pEgld 55) 1, Op.placeBid 3 550 (pEgld 61) 1] 1
    (by decide) (by decide)
  exact ⟨by decide, h.1, h.2.1, h.2.2⟩

/-- C7: a bid strictly below `current_bid + min_bid_increment` on an
active, unexpired auction is rejected and leaves the state unchanged
with no transfers. -/
theorem C7_low_bid_rejected (s : State) (caller now : Nat)
    (payment : EgldOrEsdtTokenPayment) (auction_id : Nat)
    (hact : (s.auctions auction_id).active = true)
    (htime : now < (s.auctions auction_id).end_timestamp)
    (hlow : payment.amount <
      (s.auctions auction_id).current_bid +
        (s.auctions auction_id).min_bid_increment) :
    (∃ msg, place_bid s caller now payment auction_id = Except.error msg) ∧
    applyOp s (Op.placeBid caller now payment auction_id) = s := by
  have herr : ∃ msg,
      place_bid s caller now payment auction_id = Except.error msg := by
    simp only [place_bid]
    rw [if_neg (by simp [hact]), if_neg (by simpa using htime)]
    by_cases htok :
        payment.token_identifier = (s.auctions auction_id).payment_token
    · rw [if_neg (by simpa using htok)]
      by_cases hself : caller = (s.auctions auction_id).seller
      · rw [if_pos hself]
        exact ⟨_, rfl⟩
      · rw [if_neg hself, if_pos hlow]
        exact ⟨_, rfl⟩
    · rw [if_pos htok]
      exact ⟨_, rfl⟩
  obtain ⟨msg, hmsg⟩ := herr
  exact ⟨⟨msg, hmsg⟩, applyOp_of_error hmsg⟩

/-- C7 witness: a bid of 54 (below 50 + 5) on `exState`'s live auction 1
is rejected and the state is untouched. -/
theorem C7_witness :
    (exState.auctions 1).active = true ∧
    (54 : Nat) < (exState.auctions 1).current_bid +
      (exState.auctions 1).min_bid_increment ∧
    (∃ msg, place_bid exState 2 500 (pEgld 54) 1 = Except.error msg) ∧
    applyOp exState (Op.placeBid 2 500 (pEgld 54) 1) = exState := by
  have h := C7_low_bid_rejected exState 2 500 (pEgld 54) 1 (by decide)
    (by decide) (by decide)
  exact ⟨by decide, by decide, h.1, h.2⟩

theorem init_ok {fee : Nat} {reg owner : Address} {s : State}
    (h : init fee reg owner = Except.ok s) :
    fee ≤ 1000 ∧ s.listing_counter = 1 ∧ s.auction_counter = 1 ∧
    s.marketplace_fee_percent = fee := by
  simp only [init] at h
  split at h
  · rename_i hc
    simp only [Except.ok.injEq] at h
    subst h
    exact ⟨hc, rfl, rfl, rfl⟩
  · exact absurd h (by simp)

/-- C8: counters start at 1 at `init`; each successful create returns
the current counter and bumps it by one; counters never decrease under
any operation; hence ids returned by two successful creates separated by
an arbitrary operation sequence are strictly increasing — an id is never
reused, regardless of later deactivation. -/
theorem C8_id_allocation :
    (∀ fee reg owner s, init fee reg owner = Except.ok s →
      s.listing_counter = 1 ∧ s.auction_counter = 1) ∧
    (∀ s caller now payment w p t d s' tr id,
      create_listing s caller now payment w p t d = Except.ok (s', tr, id) →
      id = s.listing_counter ∧ s'.listing_counter = id + 1) ∧
    (∀ s caller now payment w sp t d m s' tr id,
      create_auction s caller now payment w sp t d m =
        Except.ok (s', tr, id) →
      id = s.auction_counter ∧ s'.auction_counter = id + 1) ∧
    (∀ s ops, s.listing_counter ≤ (applyOps s ops).listing_counter ∧
      s.auction_counter ≤ (applyOps s ops).auction_counter) ∧
    (∀ s caller now payment w p t d s' tr id,
      create_listing s caller now payment w p t d = Except.ok (s', tr, id) →
      ∀ ops caller2 now2 payment2 w2 p2 t2 d2 s2 tr2 id2,
        create_listing (applyOps s' ops) caller2 now2 payment2 w2 p2 t2 d2 =
          Except.ok (s2, tr2, id2) → id < id2) ∧
    (∀ s caller now payment w sp t d m s' tr id,
      create_auction s caller now payment w sp t d m =
        Except.ok (s', tr, id) →
      ∀ ops caller2 now2 payment2 w2 sp2 t2 d2 m2 s2 tr2 id2,
        create_auction (applyOps s' ops) caller2 now2 payment2 w2 sp2 t2 d2
          m2 = Except.ok (s2, tr2, id2) → id < id2) := by
  have hcl : ∀ s caller now payment w p t d s' tr id,
      create_listing s caller now payment w p t d = Except.ok (s', tr, id) →
      id = s.listing_counter ∧ s'.listing_counter = id + 1 := by
    intro s caller now payment w p t d s' tr id h
    obtain ⟨-, -, -, -, -, hid, hc, -⟩ := create_listing_ok h
    exact ⟨hid, by omega⟩
  have hca : ∀ s caller now payment w sp t d m s' tr id,
      create_auction s caller now payment w sp t d m =
        Except.ok (s', tr, id) →
      id = s.auction_counter ∧ s'.auction_counter = id + 1 := by
    intro s caller now payment w sp t d m s' tr id h
    obtain ⟨-, -, -, -, -, -, hid, hc, -⟩ := create_auction_ok h
    exact ⟨hid, by omega⟩
  have hmono : ∀ s ops,
      s.listing_counter ≤ (applyOps s ops).listing_counter ∧
      s.auction_counter ≤ (applyOps s ops).auction_counter := by
    intro s ops
    obtain ⟨h1, h2, -, -⟩ := applyOps_step s ops
    exact ⟨h1, h2⟩
  refine ⟨fun fee reg owner s h => ⟨(init_ok h).2.1, (init_ok h).2.2.1⟩,
    hcl, hca, hmono, ?_, ?_⟩
  · intro s caller now payment w p t d s' tr id h ops caller2 now2 payment2
      w2 p2 t2 d2 s2 tr2 id2 h2
    obtain ⟨-, hc1⟩ := hcl s caller now payment w p t d s' tr id h
    obtain ⟨hid2, -⟩ :=
      hcl (applyOps s' ops) caller2 now2 payment2 w2 p2 t2 d2 s2 tr2 id2 h2
    have := (hmono s' ops).1
    omega
  · intro s caller now payment w sp t d m s' tr id h ops caller2 now2
      payment2 w2 sp2 t2 d2 m2 s2 tr2 id2 h2
    obtain ⟨-, hc1⟩ := hca s caller now payment w sp t d m s' tr id h
    obtain ⟨hid2, -⟩ :=
      hca (applyOps s' ops) caller2 now2 payment2 w2 sp2 t2 d2 m2 s2 tr2
        id2 h2
    have := (hmono s' ops).2
    omega

/-- C8 witness: a fresh deployment has both counters at 1, and creating
a listing in `exState` (counter 2) returns id 2 and leaves the counter
at 3. -/
theorem C8_witness :
    (∃ s, init 250 99 0 = Except.ok s ∧
      s.listing_counter = 1 ∧ s.auction_counter = 1) ∧
    (∃ s' tr id,
      create_listing exState 3 0
        { token_identifier := 9, token_nonce := 1, amount := 1 } 9 5
        EgldOrEsdtTokenIdentifier.egld 3600 = Except.ok (s', tr, id) ∧
      id = exState.listing_counter ∧ s'.listing_counter = id + 1) := by
  constructor
  · refine ⟨_, rfl, ?_⟩
    exact C8_id_allocation.1 250 99 0 _ rfl
  · refine ⟨_, _, _, rfl, ?_⟩
    exact C8_id_allocation.2.1 exState 3 0
      { token_identifier := 9, token_nonce := 1, amount := 1 } 9 5
      EgldOrEsdtTokenIdentifier.egld 3600 _ _ _ rfl

/-- C9: deployment with a fee rate above 1000 basis points is rejected;
any rate up to 1000 is accepted and stored unchanged. -/
theorem C9_fee_cap (fee : Nat) (reg owner : Address) :
    (1000 < fee → init fee reg owner = Except.error "Fee cannot exceed 10%") ∧
    (fee ≤ 1000 → ∃ s, init fee reg owner = Except.ok s ∧
      s.marketplace_fee_percent = fee) := by
  constructor
  · intro h
    simp only [init]
    rw [if_neg (by omega)]
  · intro h
    cases hres : init fee reg owner with
    | error e =>
      exfalso
      simp only [init] at hres
      rw [if_pos h] at hres
      exact Except.noConfusion hres
    | ok s =>
      exact ⟨s, rfl, (init_ok hres).2.2.2⟩

/-- C9 witness (Scenario F): fee 1500 is rejected, fee 250 is accepted
and stored. -/
theorem C9_witness :
    init 1500 99 0 = Except.error "Fee cannot exceed 10%" ∧
    ∃ s, init 250 99 0 = Except.ok s ∧ s.marketplace_fee_percent = 250 :=
  ⟨(C9_fee_cap 1500 99 0).1 (by decide), (C9_fee_cap 250 99 0).2 (by decide)⟩

/-- C10: `cancelListing` checks no deadline: for an active listing whose
deadline already passed, a call by the seller still succeeds, returns
the escrowed NFT to the seller, deactivates the listing and decrements
`active_listings`. -/
theorem C10_cancel_after_expiry (s : State) (caller now listing_id : Nat)
    (hact : (s.listings listing_id).active = true)
    (hsell : caller = (s.listings listing_id).seller)
    (hexpired : (s.listings listing_id).deadline < now)
    (hcount : 1 ≤ s.marketplace_stats.active_listings) :
    ∃ s' tr,
      cancel_listing s caller listing_id = Except.ok (s', tr) ∧
      tr = [Transfer.esdt (s.listings listing_id).seller
        (s.listings listing_id).nft_token_id
        (s.listings listing_id).nft_nonce 1] ∧
      (s'.listings listing_id).active = false ∧
      s'.marketplace_stats.active_listings + 1 =
        s.marketplace_stats.active_listings := by
  cases hres : cancel_listing s caller listing_id with
  | error e =>
    exfalso
    simp only [cancel_listing] at hres
    rw [if_neg (by simp [hact]), if_neg (by simp [hsell])] at hres
    exact Except.noConfusion hres
  | ok r =>
    obtain ⟨s', tr⟩ := r
    obtain ⟨-, -, hlist, -, -, -, hdec, -, htr⟩ := cancel_listing_ok hres
    refine ⟨s', tr, rfl, htr, ?_, ?_⟩
    · rw [hlist listing_id, if_pos rfl]
    · rw [hdec]
      omega

/-- C10 witness: at time 2000, past the deadline 1000 of `exState`'s
listing 1, the seller (address 1) cancels successfully; the NFT returns
to the seller and `active_listings` drops from 1 to 0. -/
theorem C10_witness :
    (exState.listings 1).deadline < 2000 ∧
    ∃ s' tr,
      cancel_listing exState 1 1 = Except.ok (s', tr) ∧
      tr = [Transfer.esdt (exState.listings 1).seller
        (exState.listings 1).nft_token_id (exState.listings 1).nft_nonce 1] ∧
      (s'.listings 1).active = false ∧
      s'.marketplace_stats.active_listings + 1 =
        exState.marketplace_stats.active_listings :=
  ⟨by decide,
    C10_cancel_after_expiry exState 1 2000 1 rfl rfl (by decide) (by decide)⟩

end WineMarketplace
